import Mathlib

/-!
# DnsResolver: the per-query resolver session `ResState` (resolv_private.h)

A shallow embedding of `struct ResState` and its member functions
(`ResState::ResState`, `clone`, `closeSockets`, `nameserverCount`) and of the free
functions `saturate_cast`, `is_power_of_2` and `align_ptr`, followed by theorems
about them.

Conventions of the embedding.

* Member functions are state passing: a `void` method maps the object to the
  object afterwards; a method with a result returns the pair
  `(result, object afterwards)`.
* `uint32_t`, `unsigned`, `uid_t` are `Nat`, `int`, `pid_t` are `Int`; where a
  C++ conversion can wrap, the wrap is written out (`toUint32`, `toInt32`).
* A pointer is an address (`Nat`), `nullptr` is address `0`.
* `MAXNS` is defined in `params.h`; the development is parametric in it, and the
  sample sessions use `MAXNS = 4`.
* Members that a constructor leaves without an initialiser have an
  indeterminate value in C++; that value is an explicit argument.
* `uintptr_t` and `size_t` are `bits` wide, with arithmetic modulo `2 ^ bits`;
  the free functions are parametric in `bits`, and the samples use 64.
-/

namespace DnsResolver

/-! ## Flags for `ResState::flags` -/

/-- RES_F_VC: socket is TCP. -/
def RES_F_VC : Nat := 0x00000001

/-- RES_F_EDNS0ERR: EDNS0 caused errors. -/
def RES_F_EDNS0ERR : Nat := 0x00000004

/-- RES_F_MDNS: MDNS packet. -/
def RES_F_MDNS : Nat := 0x00000008

/-! ## Machine integers -/

/-- Conversion of an `int` value to `uint32_t` (reduction modulo `2^32`). -/
def toUint32 (i : Int) : Nat := (i % 2 ^ 32).toNat

/-- Conversion of a `size_t` value to `int`: the value modulo `2^32`, read as a
two's-complement 32-bit number. -/
def toInt32 (n : Nat) : Int :=
  if n % 2 ^ 32 < 2 ^ 31 then ((n % 2 ^ 32 : Nat) : Int) else ((n % 2 ^ 32 : Nat) : Int) - 2 ^ 32

/-- The C++ operator `~` on an `int`. -/
def bitNot (i : Int) : Int := -i - 1

/-! ## Collaborator types -/

/-- An `android::base::unique_fd`: the owned descriptor, `-1` when it owns none. -/
structure unique_fd where
  fd : Int
deriving DecidableEq, Repr

/-- A default-constructed `unique_fd` owns nothing. -/
def unique_fd.empty : unique_fd := ⟨-1⟩

/-- The call `unique_fd::reset()` (new value `-1`): the wrapper releases what it
owned and owns nothing afterwards. -/
def unique_fd.reset (_this : unique_fd) : unique_fd := ⟨-1⟩

/-- A `struct timespec`. -/
structure timespec where
  tv_sec : Int
  tv_nsec : Int
deriving DecidableEq, Repr

/-- An `android::netdutils::IPSockAddr`: a value type holding an address and a port. -/
structure IPSockAddr where
  ip : Nat
  port : Nat
deriving DecidableEq, Repr

/-- A pointer to an `android::net::NetworkDnsEventReported`, as an address. -/
abbrev EventPtr := Nat

/-- The null pointer. -/
def nullptr : EventPtr := 0

/-- The members of `android_net_context` that the constructor of `ResState` reads. -/
structure android_net_context where
  dns_netid : Nat
  dns_mark : Nat
  uid : Nat
  flags : Nat
  pid : Int
deriving DecidableEq, Repr

/-! ## `struct ResState` -/

/-- The data members of `struct ResState`, in declaration order. -/
structure ResState (MAXNS : Nat) where
  netid : Nat
  uid : Nat
  pid : Int
  search_domains : List String
  nsaddrs : List IPSockAddr
  udpsocks_ts : Mathlib.Vector timespec MAXNS
  udpsocks : Mathlib.Vector unique_fd MAXNS
  ndots : Nat
  mark : Nat
  tcp_nssock : unique_fd
  tcp_nssock_ts : timespec
  flags : Nat
  event : EventPtr
  netcontext_flags : Nat
  tc_mode : Int
  enforce_dns_uid : Bool
  sort_nameservers : Bool
deriving DecidableEq

/-- The values of the members that have neither a default member initialiser nor
an entry in a constructor's initialiser list. -/
structure Indeterminate (MAXNS : Nat) where
  netid : Nat
  uid : Nat
  pid : Int
  udpsocks_ts : Mathlib.Vector timespec MAXNS
  mark : Nat
  event : EventPtr
  netcontext_flags : Nat

namespace ResState

variable {MAXNS : Nat}

/-- The private constructor `ResState() {}`: default member initialisers apply,
the vectors and the `unique_fd`s are default constructed, every other member is
indeterminate. -/
def construct_default (u : Indeterminate MAXNS) : ResState MAXNS :=
  { netid := u.netid
    uid := u.uid
    pid := u.pid
    search_domains := []
    nsaddrs := []
    udpsocks_ts := u.udpsocks_ts
    udpsocks := Mathlib.Vector.replicate MAXNS unique_fd.empty
    ndots := 1
    mark := u.mark
    tcp_nssock := unique_fd.empty
    tcp_nssock_ts := ⟨0, 0⟩
    flags := 0
    event := u.event
    netcontext_flags := u.netcontext_flags
    tc_mode := 0
    enforce_dns_uid := false
    sort_nameservers := false }

/-- The constructor `ResState(netcontext, dnsEvent)` (the struct's own name is taken
by the type). The member `udpsocks_ts` has no initialiser; `ts` is its
indeterminate value. -/
def construct (netcontext : android_net_context) (dnsEvent : EventPtr)
    (ts : Mathlib.Vector timespec MAXNS) : ResState MAXNS :=
  { netid := netcontext.dns_netid
    uid := netcontext.uid
    pid := netcontext.pid
    search_domains := []
    nsaddrs := []
    udpsocks_ts := ts
    udpsocks := Mathlib.Vector.replicate MAXNS unique_fd.empty
    ndots := 1
    mark := netcontext.dns_mark
    tcp_nssock := unique_fd.empty
    tcp_nssock_ts := ⟨0, 0⟩
    flags := 0
    event := dnsEvent
    netcontext_flags := netcontext.flags
    tc_mode := 0
    enforce_dns_uid := false
    sort_nameservers := false }

/-- The method `clone(dnsEvent)`; the default argument is `nullptr`. The result is
`(copy, this)`: the returned session and the receiver afterwards. `u` holds the
indeterminate members of the default-constructed `copy`. -/
def clone (this : ResState MAXNS) (dnsEvent : EventPtr) (u : Indeterminate MAXNS) :
    ResState MAXNS × ResState MAXNS :=
  let copy : ResState MAXNS := construct_default u
  let copy := { copy with netid := this.netid }
  let copy := { copy with uid := this.uid }
  let copy := { copy with pid := this.pid }
  let copy := { copy with search_domains := this.search_domains }
  let copy := { copy with nsaddrs := this.nsaddrs }
  let copy := { copy with udpsocks_ts := this.udpsocks_ts }
  let copy := { copy with ndots := this.ndots }
  let copy := { copy with mark := this.mark }
  let copy := { copy with tcp_nssock_ts := this.tcp_nssock_ts }
  let copy := { copy with flags := this.flags }
  let copy := { copy with event := if dnsEvent = nullptr then this.event else dnsEvent }
  let copy := { copy with netcontext_flags := this.netcontext_flags }
  let copy := { copy with tc_mode := this.tc_mode }
  let copy := { copy with enforce_dns_uid := this.enforce_dns_uid }
  let copy := { copy with sort_nameservers := this.sort_nameservers }
  (copy, this)

/-- The method `closeSockets()`: the receiver afterwards. -/
def closeSockets (this : ResState MAXNS) : ResState MAXNS :=
  let this := { this with tcp_nssock := this.tcp_nssock.reset }
  let this := { this with flags := this.flags &&& toUint32 (bitNot RES_F_VC) }
  let this := { this with udpsocks := this.udpsocks.map unique_fd.reset }
  this

/-- The method `int nameserverCount()`: `nsaddrs.size()` converted to `int`, and
the receiver afterwards. -/
def nameserverCount (this : ResState MAXNS) : Int × ResState MAXNS :=
  (toInt32 this.nsaddrs.length, this)

/-! ## Observations used by the statements -/

/-- The descriptors a session owns: the TCP slot first, then the UDP slots in
index order, empty slots left out. -/
def heldFds (s : ResState MAXNS) : List Int :=
  ((s.tcp_nssock :: s.udpsocks.toList).filter (fun sock => sock.fd ≠ -1)).map unique_fd.fd

/-- The consistency predicate between `flags` and the TCP slot: the RES_F_VC bit is
set only if the TCP slot owns a descriptor. -/
def VcConsistent (s : ResState MAXNS) : Prop :=
  s.flags &&& RES_F_VC ≠ 0 → s.tcp_nssock.fd ≠ -1

end ResState

/-! ## Sample sessions, with `MAXNS = 4` -/

/-- Four zeroed timestamps. -/
def ts4 : Mathlib.Vector timespec 4 := Mathlib.Vector.replicate 4 ⟨0, 0⟩

/-- A session in the middle of a lookup: two nameservers, the TCP socket and two
UDP sockets open, RES_F_VC and RES_F_EDNS0ERR set. -/
def busy : ResState 4 :=
  { netid := 100
    uid := 10001
    pid := 4242
    search_domains := ["corp.example"]
    nsaddrs := [⟨0x08080808, 53⟩, ⟨0x08080404, 53⟩]
    udpsocks_ts := ⟨[⟨10, 0⟩, ⟨11, 500⟩, ⟨0, 0⟩, ⟨0, 0⟩], rfl⟩
    udpsocks := ⟨[⟨5⟩, ⟨6⟩, ⟨-1⟩, ⟨-1⟩], rfl⟩
    ndots := 2
    mark := 0x30064
    tcp_nssock := ⟨7⟩
    tcp_nssock_ts := ⟨12, 0⟩
    flags := 5
    event := 0x7000
    netcontext_flags := 1
    tc_mode := 1
    enforce_dns_uid := true
    sort_nameservers := true }

/-- Indeterminate member values used with the sample sessions. -/
def junk4 : Indeterminate 4 :=
  { netid := 9, uid := 9, pid := 9, udpsocks_ts := ts4, mark := 9, event := 9,
    netcontext_flags := 9 }

/-- A sample network context. -/
def ctx : android_net_context :=
  { dns_netid := 100, dns_mark := 0x30064, uid := 10001, flags := 1, pid := 4242 }

/-- A session that holds no socket: `busy` after `closeSockets()`, written out. -/
def idle : ResState 4 :=
  { busy with
    udpsocks := ⟨[⟨-1⟩, ⟨-1⟩, ⟨-1⟩, ⟨-1⟩], rfl⟩
    tcp_nssock := ⟨-1⟩
    flags := 4 }

/-! ## The free functions `saturate_cast`, `is_power_of_2` and `align_ptr` -/

/-- The integer types a `saturate_cast<Dest>` can target, by width and signedness. -/
inductive IntType where
  | int8_t
  | uint8_t
  | int16_t
  | uint16_t
  | int32_t
  | uint32_t
  | int64_t
  | uint64_t
deriving DecidableEq, Repr

namespace IntType

/-- The width of the type in bits. -/
def bits : IntType → Nat
  | int8_t => 8
  | uint8_t => 8
  | int16_t => 16
  | uint16_t => 16
  | int32_t => 32
  | uint32_t => 32
  | int64_t => 64
  | uint64_t => 64

/-- Whether the type is signed. -/
def isSigned : IntType → Bool
  | int8_t => true
  | int16_t => true
  | int32_t => true
  | int64_t => true
  | _ => false

/-- The value `std::numeric_limits<Dest>::max()`. -/
def max (d : IntType) : Int :=
  if d.isSigned then 2 ^ (d.bits - 1) - 1 else 2 ^ d.bits - 1

/-- The value `std::numeric_limits<Dest>::min()`. -/
def min (d : IntType) : Int :=
  if d.isSigned then -(2 ^ (d.bits - 1)) else 0

/-- Conversion of an integer value to the type: the value modulo `2 ^ bits`, read
as two's complement when the type is signed. -/
def convert (d : IntType) (v : Int) : Int :=
  if d.isSigned ∧ 2 ^ (d.bits - 1) ≤ v % 2 ^ d.bits then v % 2 ^ d.bits - 2 ^ d.bits
  else v % 2 ^ d.bits

/-- The usual arithmetic conversions for a binary operator with one operand of
type `int64_t` and the other of the given type: an unsigned type of the same rank
as `int64_t` wins, every other type is converted to `int64_t`. -/
def withInt64 : IntType → IntType
  | uint64_t => uint64_t
  | _ => int64_t

end IntType

/-- The function template `saturate_cast<Dest>(int64_t x)`. Both comparisons are
evaluated in the common type of `int64_t` and `Dest`. -/
def saturate_cast (Dest : IntType) (x : Int) : Int :=
  if Dest.withInt64.convert x > Dest.withInt64.convert Dest.max then Dest.max
  else if Dest.withInt64.convert x < Dest.withInt64.convert Dest.min then Dest.min
  else Dest.convert x

/-- The mathematical clamp of `x` to the range `[lo, hi]`. -/
def clamp (lo hi x : Int) : Int :=
  if x < lo then lo else if hi < x then hi else x

/-- Addition of two `uintptr_t` values, `bits` wide. -/
def uadd (bits a b : Nat) : Nat := (a + b) % 2 ^ bits

/-- Subtraction of two `uintptr_t` (or `size_t`) values, `bits` wide. -/
def usub (bits a b : Nat) : Nat := (a % 2 ^ bits + (2 ^ bits - b % 2 ^ bits)) % 2 ^ bits

/-- The operator `~` on a `uintptr_t` value, `bits` wide. -/
def unot (bits a : Nat) : Nat := 2 ^ bits - 1 - a % 2 ^ bits

/-- The function `is_power_of_2(size_t n)`, for a `size_t` that is `bits` wide. -/
def is_power_of_2 (bits n : Nat) : Bool :=
  n != 0 && (n &&& usub bits n 1) == 0

/-- The function template `align_ptr<Alignment>(p)` on the address of `p`, for a
`uintptr_t` that is `bits` wide; `sizeof(T) == 1`, so `p + bias` advances the
address by `bias`. The requires-clause `is_power_of_2(Alignment)` is a hypothesis
of the theorems. -/
def align_ptr (bits Alignment p : Nat) : Nat :=
  let mask := usub bits Alignment 1
  let uintptr := p
  let aligned := uadd bits uintptr mask &&& unot bits mask
  let bias := usub bits aligned uintptr
  uadd bits p bias

/-! ## Lemmas on the flag mask -/

theorem toUint32_bitNot_RES_F_VC : toUint32 (bitNot RES_F_VC) = 4294967294 := by
  decide

theorem testBit_vcMask (i : Nat) :
    Nat.testBit 4294967294 i = decide (1 ≤ i ∧ i < 32) := by
  cases i with
  | zero => decide
  | succ j =>
    rw [Nat.testBit_succ]
    have h : (4294967294 : Nat) / 2 = 2 ^ 31 - 1 := by norm_num
    rw [h, Nat.testBit_two_pow_sub_one]
    simp
    omega

theorem land_vcMask_of_lt (f : Nat) (h : f < 2 ^ 32) :
    f &&& 4294967294 = f - f % 2 := by
  apply Nat.eq_of_testBit_eq
  intro i
  rw [Nat.testBit_and, testBit_vcMask]
  cases i with
  | zero =>
    simp [Nat.testBit_zero]
    omega
  | succ j =>
    have e : f - f % 2 = 2 * (f / 2) := by omega
    have e2 : 2 * (f / 2) / 2 = f / 2 := by omega
    rw [e, Nat.testBit_succ, Nat.testBit_succ, e2]
    by_cases hj : j + 1 < 32
    · simp [hj]
    · simp [hj]
      apply Nat.testBit_lt_two_pow
      have h31 : 2 ^ 31 ≤ 2 ^ j := Nat.pow_le_pow_right (by norm_num) (by omega)
      omega

theorem land_vcMask_idem (f : Nat) :
    (f &&& 4294967294) &&& 4294967294 = f &&& 4294967294 := by
  rw [Nat.and_assoc, Nat.and_self]

theorem land_vcMask_land (f b : Nat) (hb : 4294967294 &&& b = b) :
    (f &&& 4294967294) &&& b = f &&& b := by
  rw [Nat.and_assoc, hb]

theorem land_vcMask_VC (f : Nat) : (f &&& 4294967294) &&& RES_F_VC = 0 := by
  rw [Nat.and_assoc]
  have h : (4294967294 : Nat) &&& RES_F_VC = 0 := by decide
  rw [h, Nat.and_zero]

/-! ## Lemmas on the methods -/

namespace ResState

variable {MAXNS : Nat}

theorem closeSockets_flags (s : ResState MAXNS) :
    s.closeSockets.flags = s.flags &&& 4294967294 := by
  show s.flags &&& toUint32 (bitNot RES_F_VC) = _
  rw [toUint32_bitNot_RES_F_VC]

theorem closeSockets_udpsocks_get (s : ResState MAXNS) (i : Fin MAXNS) :
    s.closeSockets.udpsocks.get i = ⟨-1⟩ := by
  show (s.udpsocks.map unique_fd.reset).get i = _
  rw [Mathlib.Vector.get_map]
  rfl

theorem heldFds_eq_nil (s : ResState MAXNS) (htcp : s.tcp_nssock.fd = -1)
    (hudp : ∀ i : Fin MAXNS, (s.udpsocks.get i).fd = -1) : s.heldFds = [] := by
  unfold heldFds
  rw [List.map_eq_nil_iff, List.filter_eq_nil_iff]
  intro sock hmem
  rcases List.mem_cons.mp hmem with h | h
  · simp [h, htcp]
  · obtain ⟨i, hi⟩ := (Mathlib.Vector.mem_iff_get sock s.udpsocks).mp h
    simp [← hi, hudp i]

theorem clone_udpsocks_get (s : ResState MAXNS) (e : EventPtr) (u : Indeterminate MAXNS)
    (i : Fin MAXNS) : ((s.clone e u).1.udpsocks.get i) = ⟨-1⟩ := by
  show (Mathlib.Vector.replicate MAXNS unique_fd.empty).get i = _
  rw [Mathlib.Vector.get_replicate]
  rfl

theorem toInt32_of_lt (n : Nat) (h : n < 2 ^ 31) : toInt32 n = (n : Int) := by
  unfold toInt32
  have hm : n % 2 ^ 32 = n := Nat.mod_eq_of_lt (by omega)
  rw [hm, if_pos h]

theorem nameserverCount_fst (s : ResState MAXNS) :
    s.nameserverCount.1 = toInt32 s.nsaddrs.length :=
  rfl

theorem toInt32_range (n : Nat) :
    (toInt32 n - (n : Int)) % 2 ^ 32 = 0 ∧ -2 ^ 31 ≤ toInt32 n ∧ toInt32 n < 2 ^ 31 := by
  unfold toInt32
  split <;> omega

/-! ## The session contract -/

/-- C1: for every session state, after `closeSockets()` the TCP socket slot is
empty, each of the `MAXNS` UDP socket slots is empty, the RES_F_VC bit of `flags`
is clear, and the session owns no descriptor at all. -/
theorem closeSockets_releases_all (s : ResState MAXNS) :
    s.closeSockets.tcp_nssock.fd = -1 ∧
      (∀ i : Fin MAXNS, (s.closeSockets.udpsocks.get i).fd = -1) ∧
      s.closeSockets.flags &&& RES_F_VC = 0 ∧
      s.closeSockets.heldFds = [] := by
  have hudp : ∀ i : Fin MAXNS, (s.closeSockets.udpsocks.get i).fd = -1 := by
    intro i
    rw [closeSockets_udpsocks_get]
  refine ⟨rfl, hudp, ?_, heldFds_eq_nil _ rfl hudp⟩
  rw [closeSockets_flags]
  exact land_vcMask_VC s.flags

/-- C2: for every session state, `nameserverCount()` called after `closeSockets()`
returns what `nameserverCount()` returned before it, and `nsaddrs` is the same
sequence, element by element. -/
theorem closeSockets_keeps_nameservers (s : ResState MAXNS) :
    (nameserverCount (closeSockets (nameserverCount s).2)).1 = (nameserverCount s).1 ∧
      s.closeSockets.nsaddrs = s.nsaddrs ∧
      s.closeSockets.nsaddrs.length = s.nsaddrs.length ∧
      ∀ i : Nat, s.closeSockets.nsaddrs.get? i = s.nsaddrs.get? i :=
  ⟨rfl, rfl, rfl, fun _ => rfl⟩

/-- C3: for every session state, also one whose TCP and UDP slots hold open
sockets, the session returned by `clone()` has an empty TCP slot and `MAXNS` empty
UDP slots, and its `nsaddrs`, `search_domains`, `ndots` and `mark` equal the
original's. -/
theorem clone_empty_slots_same_addressing (s : ResState MAXNS) (dnsEvent : EventPtr)
    (u : Indeterminate MAXNS) :
    (s.clone dnsEvent u).1.tcp_nssock.fd = -1 ∧
      (∀ i : Fin MAXNS, ((s.clone dnsEvent u).1.udpsocks.get i).fd = -1) ∧
      (s.clone dnsEvent u).1.nsaddrs = s.nsaddrs ∧
      (s.clone dnsEvent u).1.search_domains = s.search_domains ∧
      (s.clone dnsEvent u).1.ndots = s.ndots ∧
      (s.clone dnsEvent u).1.mark = s.mark := by
  refine ⟨rfl, ?_, rfl, rfl, rfl, rfl⟩
  intro i
  rw [clone_udpsocks_get]

/-- C4: `clone()` does not modify the original and duplicates no descriptor: the
receiver after the call is the receiver before it, field by field (socket slots,
timestamps and flags included), the clone owns no descriptor, and the descriptors
owned by receiver and clone together are those the receiver owned before. -/
theorem clone_leaves_original (s : ResState MAXNS) (dnsEvent : EventPtr)
    (u : Indeterminate MAXNS) :
    (s.clone dnsEvent u).2 = s ∧
      (s.clone dnsEvent u).2.udpsocks = s.udpsocks ∧
      (s.clone dnsEvent u).2.tcp_nssock = s.tcp_nssock ∧
      (s.clone dnsEvent u).2.udpsocks_ts = s.udpsocks_ts ∧
      (s.clone dnsEvent u).2.tcp_nssock_ts = s.tcp_nssock_ts ∧
      (s.clone dnsEvent u).2.flags = s.flags ∧
      (s.clone dnsEvent u).1.heldFds = [] ∧
      (s.clone dnsEvent u).2.heldFds ++ (s.clone dnsEvent u).1.heldFds = s.heldFds := by
  have hnil : (s.clone dnsEvent u).1.heldFds = [] :=
    heldFds_eq_nil _ rfl (fun i => by rw [clone_udpsocks_get])
  refine ⟨rfl, rfl, rfl, rfl, rfl, rfl, hnil, ?_⟩
  rw [hnil, List.append_nil]
  rfl

/-- C5: `closeSockets()` is idempotent: applied twice it yields the state it
yields applied once; and on a session (with `flags` in `uint32_t` range) that owns
no socket and has RES_F_VC clear it changes no field. -/
theorem closeSockets_idempotent (s : ResState MAXNS) :
    s.closeSockets.closeSockets = s.closeSockets ∧
      (s.flags < 2 ^ 32 → s.tcp_nssock.fd = -1 →
        (∀ i : Fin MAXNS, (s.udpsocks.get i).fd = -1) → s.flags &&& RES_F_VC = 0 →
        s.closeSockets = s) := by
  constructor
  · have hf : s.closeSockets.closeSockets.flags = s.closeSockets.flags := by
      rw [closeSockets_flags, closeSockets_flags, land_vcMask_idem]
    have hu : s.closeSockets.closeSockets.udpsocks = s.closeSockets.udpsocks := by
      apply Mathlib.Vector.ext
      intro i
      rw [closeSockets_udpsocks_get, closeSockets_udpsocks_get]
    cases s
    simp only [closeSockets] at hf hu ⊢
    simp only [hf, hu, unique_fd.reset]
  · intro hlt htcp hudp hvc
    have hf : s.closeSockets.flags = s.flags := by
      rw [closeSockets_flags, land_vcMask_of_lt _ hlt]
      have h2 : s.flags % 2 = 0 := by
        rw [← Nat.and_one_is_mod]
        exact hvc
      omega
    have hu : s.closeSockets.udpsocks = s.udpsocks := by
      apply Mathlib.Vector.ext
      intro i
      rw [closeSockets_udpsocks_get]
      have h := hudp i
      cases hget : s.udpsocks.get i with
      | mk fd =>
        rw [hget] at h
        simp only at h
        rw [h]
    have ht : s.tcp_nssock = ⟨-1⟩ := by
      cases hget : s.tcp_nssock with
      | mk fd =>
        rw [hget] at htcp
        simp only at htcp
        rw [htcp]
    cases s
    simp only [closeSockets] at hf hu ht ⊢
    simp only [hf, hu, unique_fd.reset]
    simp only [ht]

/-- Witness for C5 at the sample session `idle`. -/
theorem closeSockets_idempotent_witness :
    idle.closeSockets.closeSockets = idle.closeSockets ∧
      idle.flags < 2 ^ 32 ∧ idle.tcp_nssock.fd = -1 ∧
      (∀ i : Fin 4, (idle.udpsocks.get i).fd = -1) ∧ idle.flags &&& RES_F_VC = 0 ∧
      idle.closeSockets = idle :=
  ⟨(closeSockets_idempotent idle).1, by decide, by decide, by decide, by decide,
    (closeSockets_idempotent idle).2 (by decide) (by decide) (by decide) (by decide)⟩

/-- C6: the clone's event reference is the supplied one when one is supplied
(non-null) and the original's when none is (null, the default argument); apart
from `event`, the clone is the same whatever the argument, and so is the receiver
afterwards. -/
theorem clone_event_argument (s : ResState MAXNS) (dnsEvent : EventPtr)
    (u : Indeterminate MAXNS) :
    (dnsEvent ≠ nullptr → (s.clone dnsEvent u).1.event = dnsEvent) ∧
      (dnsEvent = nullptr → (s.clone dnsEvent u).1.event = s.event) ∧
      (∀ other : EventPtr,
        { (s.clone dnsEvent u).1 with event := nullptr } =
            { (s.clone other u).1 with event := nullptr } ∧
          (s.clone dnsEvent u).2 = (s.clone other u).2) := by
  refine ⟨?_, ?_, fun _ => ⟨rfl, rfl⟩⟩
  · intro h
    show (if dnsEvent = nullptr then s.event else dnsEvent) = dnsEvent
    rw [if_neg h]
  · intro h
    show (if dnsEvent = nullptr then s.event else dnsEvent) = s.event
    rw [if_pos h]

/-- Witness for C6 at the sample session `busy`: a replacement reference `0x8000`
is taken over, the default argument keeps the reference `0x7000` of `busy`. -/
theorem clone_event_argument_witness :
    (0x8000 : EventPtr) ≠ nullptr ∧ (busy.clone 0x8000 junk4).1.event = 0x8000 ∧
      (busy.clone nullptr junk4).1.event = 0x7000 :=
  ⟨by decide, (clone_event_argument busy 0x8000 junk4).1 (by decide),
    (clone_event_argument busy nullptr junk4).2.1 rfl⟩

/-- C7: for every session state, `nameserverCount()` equals the number of elements
of `nsaddrs` and the call changes no field of the session. A session state keeps
the invariant of the data model that `nsaddrs` has at most `MAXNS` elements, and
`MAXNS` is an `int` constant; under these the conversion of `nsaddrs.size()` to
`int` is exact. -/
theorem nameserverCount_eq_size (s : ResState MAXNS) :
    (MAXNS < 2 ^ 31 → s.nsaddrs.length ≤ MAXNS →
        s.nameserverCount.1 = (s.nsaddrs.length : Int)) ∧
      s.nameserverCount.2 = s := by
  refine ⟨fun hMAXNS hinv => ?_, rfl⟩
  rw [nameserverCount_fst]
  exact toInt32_of_lt _ (Nat.lt_of_le_of_lt hinv hMAXNS)

/-- Witness for C7 with `MAXNS = 4` at the sample session `busy`, which has two
nameservers. -/
theorem nameserverCount_eq_size_witness :
    4 < 2 ^ 31 ∧ busy.nsaddrs.length ≤ 4 ∧ busy.nameserverCount.1 = 2 ∧
      busy.nameserverCount.2 = busy :=
  ⟨by decide, by decide, (nameserverCount_eq_size busy).1 (by decide) (by decide),
    (nameserverCount_eq_size busy).2⟩

/-- C8: the bound `nameserverCount() <= MAXNS` is an invariant of the session
operations: a freshly constructed session has zero nameservers and satisfies it;
a session that satisfies it still does after `closeSockets()`, and so does the
session returned by `clone()`; and under the bound every index below
`nameserverCount()` is a valid index into `udpsocks` and `udpsocks_ts`. -/
theorem nameserverCount_le_MAXNS_invariant (netcontext : android_net_context)
    (dnsEvent : EventPtr) (ts : Mathlib.Vector timespec MAXNS) (s : ResState MAXNS)
    (other : EventPtr) (u : Indeterminate MAXNS) :
    ((construct netcontext dnsEvent ts : ResState MAXNS).nameserverCount.1 = 0 ∧
        (construct netcontext dnsEvent ts : ResState MAXNS).nameserverCount.1 ≤ (MAXNS : Int)) ∧
      (s.nameserverCount.1 ≤ (MAXNS : Int) →
        s.closeSockets.nameserverCount.1 ≤ (MAXNS : Int) ∧
          (s.clone other u).1.nameserverCount.1 ≤ (MAXNS : Int)) ∧
      (s.nameserverCount.1 ≤ (MAXNS : Int) →
        ∀ i : Nat, (i : Int) < s.nameserverCount.1 →
          i < s.udpsocks.toList.length ∧ i < s.udpsocks_ts.toList.length) := by
  have h0 : (construct netcontext dnsEvent ts : ResState MAXNS).nameserverCount.1 = 0 := by
    rw [nameserverCount_fst]
    rfl
  refine ⟨⟨h0, ?_⟩, fun h => ⟨h, h⟩, ?_⟩
  · rw [h0]
    exact Int.ofNat_nonneg MAXNS
  · intro h i hi
    rw [Mathlib.Vector.toList_length, Mathlib.Vector.toList_length]
    omega

/-- Witness for C8 with `MAXNS = 4` at the sample session `busy`. -/
theorem nameserverCount_le_MAXNS_invariant_witness :
    busy.nameserverCount.1 ≤ 4 ∧
      (busy.closeSockets.nameserverCount.1 ≤ 4 ∧
        (busy.clone nullptr junk4).1.nameserverCount.1 ≤ 4) ∧
      (1 < busy.udpsocks.toList.length ∧ 1 < busy.udpsocks_ts.toList.length) :=
  ⟨by decide,
    (nameserverCount_le_MAXNS_invariant ctx 0x7000 ts4 busy nullptr junk4).2.1 (by decide),
    (nameserverCount_le_MAXNS_invariant ctx 0x7000 ts4 busy nullptr junk4).2.2 (by decide) 1
      (by decide)⟩

/-- C9, as stated, fails: the sample session `busy` has RES_F_VC set and its TCP
slot open, so the predicate holds for it; its clone has RES_F_VC still set and an
empty TCP slot, so the predicate fails for the clone. -/
theorem clone_not_VcConsistent :
    VcConsistent busy ∧
      (busy.clone nullptr junk4).1.flags &&& RES_F_VC = 1 ∧
      (busy.clone nullptr junk4).1.tcp_nssock.fd = -1 ∧
      ¬ VcConsistent (busy.clone nullptr junk4).1 := by
  refine ⟨fun _ => by decide, by decide, by decide, ?_⟩
  intro h
  exact absurd (h (by decide)) (by decide)

/-- C9, amended: the predicate `RES_F_VC set only if the TCP slot is open` holds
for a freshly constructed session and is preserved by `closeSockets()`; `clone()`
copies `flags` as they are and leaves the TCP slot of the clone empty, so the
predicate holds for the clone exactly when RES_F_VC is clear in the original. -/
theorem VcConsistent_operations (netcontext : android_net_context) (dnsEvent : EventPtr)
    (ts : Mathlib.Vector timespec MAXNS) (s : ResState MAXNS) (other : EventPtr)
    (u : Indeterminate MAXNS) :
    VcConsistent (construct netcontext dnsEvent ts : ResState MAXNS) ∧
      (VcConsistent s → VcConsistent s.closeSockets) ∧
      (s.clone other u).1.flags = s.flags ∧
      (s.clone other u).1.tcp_nssock.fd = -1 ∧
      (VcConsistent (s.clone other u).1 ↔ s.flags &&& RES_F_VC = 0) := by
  refine ⟨?_, ?_, rfl, rfl, ?_⟩
  · intro h
    exact absurd (Nat.zero_and RES_F_VC) h
  · intro _ h
    rw [closeSockets_flags] at h
    exact absurd (land_vcMask_VC s.flags) h
  · constructor
    · intro h
      by_contra hne
      exact h hne rfl
    · intro h hne
      exact absurd h hne

/-- Witness for C9 (amended) at the sample session `idle`. -/
theorem VcConsistent_operations_witness :
    VcConsistent idle ∧ VcConsistent idle.closeSockets ∧
      idle.flags &&& RES_F_VC = 0 ∧ VcConsistent (idle.clone nullptr junk4).1 :=
  ⟨fun h => absurd (by decide) h,
    (VcConsistent_operations ctx 0x7000 ts4 idle nullptr junk4).2.1
      (fun h => absurd (by decide) h),
    by decide,
    (VcConsistent_operations ctx 0x7000 ts4 idle nullptr junk4).2.2.2.2.mpr (by decide)⟩

/-- C10: `closeSockets()` changes the socket slots and the RES_F_VC bit only. For
every session state with `flags` in `uint32_t` range, `flags` afterwards is `flags`
before with bit 0 (RES_F_VC) cleared: that bit is clear, every other bit, the
RES_F_EDNS0ERR and RES_F_MDNS bits among them, is as before; and `netid`, `uid`,
`pid`, `search_domains`, `nsaddrs`, `ndots`, `mark`, `udpsocks_ts`,
`tcp_nssock_ts`, `event`, `netcontext_flags`, `tc_mode`, `enforce_dns_uid` and
`sort_nameservers` are unchanged. -/
theorem closeSockets_frame (s : ResState MAXNS) (hflags : s.flags < 2 ^ 32) :
    (s.closeSockets.flags = s.flags - (s.flags &&& RES_F_VC) ∧
        s.closeSockets.flags.testBit 0 = false ∧
        (∀ i : Nat, i ≠ 0 → s.closeSockets.flags.testBit i = s.flags.testBit i) ∧
        s.closeSockets.flags &&& RES_F_EDNS0ERR = s.flags &&& RES_F_EDNS0ERR ∧
        s.closeSockets.flags &&& RES_F_MDNS = s.flags &&& RES_F_MDNS) ∧
      s.closeSockets.netid = s.netid ∧
      s.closeSockets.uid = s.uid ∧
      s.closeSockets.pid = s.pid ∧
      s.closeSockets.search_domains = s.search_domains ∧
      s.closeSockets.nsaddrs = s.nsaddrs ∧
      s.closeSockets.ndots = s.ndots ∧
      s.closeSockets.mark = s.mark ∧
      s.closeSockets.udpsocks_ts = s.udpsocks_ts ∧
      s.closeSockets.tcp_nssock_ts = s.tcp_nssock_ts ∧
      s.closeSockets.event = s.event ∧
      s.closeSockets.netcontext_flags = s.netcontext_flags ∧
      s.closeSockets.tc_mode = s.tc_mode ∧
      s.closeSockets.enforce_dns_uid = s.enforce_dns_uid ∧
      s.closeSockets.sort_nameservers = s.sort_nameservers := by
  refine ⟨⟨?_, ?_, ?_, ?_, ?_⟩, rfl, rfl, rfl, rfl, rfl, rfl, rfl, rfl, rfl, rfl, rfl, rfl,
    rfl, rfl⟩
  · rw [closeSockets_flags, land_vcMask_of_lt _ hflags]
    show _ = s.flags - (s.flags &&& 1)
    rw [Nat.and_one_is_mod]
  · rw [closeSockets_flags, Nat.testBit_and, testBit_vcMask]
    simp
  · intro i hi
    rw [closeSockets_flags, Nat.testBit_and, testBit_vcMask]
    by_cases h32 : i < 32
    · have h1 : 1 ≤ i := Nat.one_le_iff_ne_zero.mpr hi
      simp [h1, h32]
    · have hfalse : s.flags.testBit i = false := by
        apply Nat.testBit_lt_two_pow
        have hpow : 2 ^ 32 ≤ 2 ^ i := Nat.pow_le_pow_right (by norm_num) (by omega)
        omega
      simp [hfalse]
  · rw [closeSockets_flags]
    exact land_vcMask_land _ _ (by decide)
  · rw [closeSockets_flags]
    exact land_vcMask_land _ _ (by decide)

/-- Witness for C10 at the sample session `busy`, whose `flags` are
`RES_F_VC | RES_F_EDNS0ERR`: afterwards they are `RES_F_EDNS0ERR`. -/
theorem closeSockets_frame_witness :
    busy.flags < 2 ^ 32 ∧ busy.closeSockets.flags = 4 ∧ busy.closeSockets.netid = 100 :=
  ⟨by decide, (closeSockets_frame busy (by decide)).1.1,
    (closeSockets_frame busy (by decide)).2.1⟩

/-- C11: for every network context `c` and event reference `e`, the session
constructed from `(c, e)` has `netid = c.dns_netid`, `uid = c.uid`, `pid = c.pid`,
`mark = c.dns_mark`, `netcontext_flags = c.flags`, `event = e`, and is otherwise in
the empty initial state: no search domain, no nameserver (`nameserverCount()` is
0), the TCP slot and every UDP slot empty, `flags = 0`, `ndots = 1`, `tc_mode = 0`,
`enforce_dns_uid` and `sort_nameservers` false. -/
theorem construct_initial_state (c : android_net_context) (e : EventPtr)
    (ts : Mathlib.Vector timespec MAXNS) :
    let s : ResState MAXNS := construct c e ts
    (s.netid = c.dns_netid ∧ s.uid = c.uid ∧ s.pid = c.pid ∧ s.mark = c.dns_mark ∧
        s.netcontext_flags = c.flags ∧ s.event = e) ∧
      s.search_domains = [] ∧
      s.nsaddrs = [] ∧
      s.nameserverCount.1 = 0 ∧
      s.tcp_nssock.fd = -1 ∧
      (∀ i : Fin MAXNS, (s.udpsocks.get i).fd = -1) ∧
      s.heldFds = [] ∧
      s.flags = 0 ∧
      s.ndots = 1 ∧
      s.tc_mode = 0 ∧
      s.enforce_dns_uid = false ∧
      s.sort_nameservers = false := by
  intro s
  have hudp : ∀ i : Fin MAXNS, (s.udpsocks.get i).fd = -1 := by
    intro i
    show ((Mathlib.Vector.replicate MAXNS unique_fd.empty).get i).fd = -1
    rw [Mathlib.Vector.get_replicate]
    rfl
  have hcount : s.nameserverCount.1 = 0 := by
    rw [nameserverCount_fst]
    rfl
  exact ⟨⟨rfl, rfl, rfl, rfl, rfl, rfl⟩, rfl, rfl, hcount, rfl, hudp,
    heldFds_eq_nil s rfl hudp, rfl, rfl, rfl, rfl, rfl⟩

/-- C12: `clone()` carries over the remaining configuration: the clone's `netid`,
`uid`, `pid`, `netcontext_flags`, `tc_mode`, `enforce_dns_uid`, `sort_nameservers`
and the RES_F_EDNS0ERR and RES_F_MDNS bits of `flags` equal the original's, so
either bit is set in the clone exactly when it is set in the original. -/
theorem clone_carries_configuration (s : ResState MAXNS) (dnsEvent : EventPtr)
    (u : Indeterminate MAXNS) :
    (s.clone dnsEvent u).1.netid = s.netid ∧
      (s.clone dnsEvent u).1.uid = s.uid ∧
      (s.clone dnsEvent u).1.pid = s.pid ∧
      (s.clone dnsEvent u).1.netcontext_flags = s.netcontext_flags ∧
      (s.clone dnsEvent u).1.tc_mode = s.tc_mode ∧
      (s.clone dnsEvent u).1.enforce_dns_uid = s.enforce_dns_uid ∧
      (s.clone dnsEvent u).1.sort_nameservers = s.sort_nameservers ∧
      (s.clone dnsEvent u).1.flags &&& RES_F_EDNS0ERR = s.flags &&& RES_F_EDNS0ERR ∧
      (s.clone dnsEvent u).1.flags &&& RES_F_MDNS = s.flags &&& RES_F_MDNS ∧
      ((s.clone dnsEvent u).1.flags &&& RES_F_EDNS0ERR ≠ 0 ↔ s.flags &&& RES_F_EDNS0ERR ≠ 0) ∧
      ((s.clone dnsEvent u).1.flags &&& RES_F_MDNS ≠ 0 ↔ s.flags &&& RES_F_MDNS ≠ 0) :=
  ⟨rfl, rfl, rfl, rfl, rfl, rfl, rfl, rfl, rfl, Iff.rfl, Iff.rfl⟩

/-- Witness for C12 at the sample session `busy`, which has RES_F_EDNS0ERR set:
the bit is set in its clone. -/
theorem clone_carries_configuration_witness :
    busy.flags &&& RES_F_EDNS0ERR ≠ 0 ∧
      (busy.clone nullptr junk4).1.flags &&& RES_F_EDNS0ERR ≠ 0 ∧
      (busy.clone nullptr junk4).1.netid = 100 :=
  ⟨by decide,
    (clone_carries_configuration busy nullptr junk4).2.2.2.2.2.2.2.2.2.1.mpr (by decide),
    (clone_carries_configuration busy nullptr junk4).1⟩

end ResState

/-! ## Lemmas on the free functions -/

theorem usub_one (bits n : Nat) (h0 : n ≠ 0) (hlt : n < 2 ^ bits) :
    usub bits n 1 = n - 1 := by
  unfold usub
  have h1 : 1 % 2 ^ bits = 1 := Nat.mod_eq_of_lt (by omega)
  rw [h1, Nat.mod_eq_of_lt hlt]
  have e : n + (2 ^ bits - 1) = (n - 1) + 2 ^ bits := by omega
  rw [e, Nat.add_mod_right]
  exact Nat.mod_eq_of_lt (by omega)

theorem testBit_two_pow_add_lt (k x : Nat) (hx : x < 2 ^ k) :
    Nat.testBit (2 ^ k + x) k = true := by
  rw [Nat.testBit_two_pow_add_eq, Nat.testBit_lt_two_pow hx]
  rfl

theorem land_sub_one_eq_zero_iff (n : Nat) (h0 : n ≠ 0) :
    n &&& (n - 1) = 0 ↔ ∃ k : Nat, n = 2 ^ k := by
  constructor
  · intro h
    refine ⟨Nat.log 2 n, ?_⟩
    have hle : 2 ^ Nat.log 2 n ≤ n := Nat.pow_log_le_self 2 h0
    have hlt : n < 2 ^ (Nat.log 2 n + 1) := Nat.lt_pow_succ_log_self (by norm_num) n
    by_contra hne
    generalize Nat.log 2 n = k at hle hlt hne
    rw [Nat.pow_succ] at hlt
    have hn : n = 2 ^ k + (n - 2 ^ k) := by omega
    have hn1 : n - 1 = 2 ^ k + (n - 2 ^ k - 1) := by omega
    have hb : Nat.testBit (n &&& (n - 1)) k = true := by
      rw [Nat.testBit_and]
      have b1 : Nat.testBit n k = true := by
        rw [hn]
        exact testBit_two_pow_add_lt k _ (by omega)
      have b2 : Nat.testBit (n - 1) k = true := by
        rw [hn1]
        exact testBit_two_pow_add_lt k _ (by omega)
      rw [b1, b2]
      rfl
    rw [h, Nat.zero_testBit] at hb
    exact Bool.noConfusion hb
  · rintro ⟨k, rfl⟩
    rw [Nat.and_pow_two_sub_one_eq_mod, Nat.mod_self]

theorem is_power_of_2_iff (bits n : Nat) (hlt : n < 2 ^ bits) :
    is_power_of_2 bits n = true ↔ ∃ k : Nat, n = 2 ^ k := by
  unfold is_power_of_2
  by_cases h0 : n = 0
  · subst h0
    simp
    intro k
    exact (Nat.pos_of_ne_zero (by positivity)).ne
  · rw [usub_one bits n h0 hlt, ← land_sub_one_eq_zero_iff n h0]
    simp [h0]

theorem land_two_pow_sub_two_pow (bits k s : Nat) (hk : k ≤ bits) (hs : s < 2 ^ bits) :
    s &&& (2 ^ bits - 2 ^ k) = s - s % 2 ^ k := by
  have e1 : 2 ^ bits - 2 ^ k = 2 ^ k * (2 ^ (bits - k) - 1) := by
    have hpow : 2 ^ bits = 2 ^ k * 2 ^ (bits - k) := by
      rw [← Nat.pow_add]
      congr 1
      omega
    rw [Nat.mul_sub, Nat.mul_one, ← hpow]
  have e2 : s - s % 2 ^ k = 2 ^ k * (s / 2 ^ k) := by
    have h := Nat.div_add_mod s (2 ^ k)
    omega
  apply Nat.eq_of_testBit_eq
  intro i
  rw [Nat.testBit_and, e1, e2, Nat.testBit_mul_pow_two, Nat.testBit_mul_pow_two,
    Nat.testBit_two_pow_sub_one, ← Nat.shiftRight_eq_div_pow, Nat.testBit_shiftRight]
  by_cases hik : k ≤ i
  · have hki : k + (i - k) = i := by omega
    rw [hki]
    by_cases hib : i < bits
    · have h3 : i - k < bits - k := by omega
      simp [hik, h3]
    · have hfalse : s.testBit i = false := by
        apply Nat.testBit_lt_two_pow
        have hpow : 2 ^ bits ≤ 2 ^ i := Nat.pow_le_pow_right (by norm_num) (by omega)
        omega
      simp [hfalse]
  · simp [hik]

theorem align_ptr_eq (bits k p : Nat) (hA : 2 ^ k < 2 ^ bits) (hno : p + 2 ^ k - 1 < 2 ^ bits) :
    align_ptr bits (2 ^ k) p = (p + 2 ^ k - 1) - (p + 2 ^ k - 1) % 2 ^ k := by
  have hpos : 0 < 2 ^ k := Nat.two_pow_pos k
  have hk : k ≤ bits := by
    by_contra hnot
    have hle : 2 ^ bits ≤ 2 ^ k := Nat.pow_le_pow_right (by norm_num) (by omega)
    omega
  have hmask : usub bits (2 ^ k) 1 = 2 ^ k - 1 := usub_one bits _ (by omega) hA
  have hsum : uadd bits p (2 ^ k - 1) = p + 2 ^ k - 1 := by
    unfold uadd
    have e : p + (2 ^ k - 1) = p + 2 ^ k - 1 := by omega
    rw [e]
    exact Nat.mod_eq_of_lt hno
  have hnot : unot bits (2 ^ k - 1) = 2 ^ bits - 2 ^ k := by
    unfold unot
    rw [Nat.mod_eq_of_lt (by omega)]
    omega
  have hmod : (p + 2 ^ k - 1) % 2 ^ k < 2 ^ k := Nat.mod_lt _ hpos
  have hmodle : (p + 2 ^ k - 1) % 2 ^ k ≤ p + 2 ^ k - 1 := Nat.mod_le _ _
  have hbias : usub bits ((p + 2 ^ k - 1) - (p + 2 ^ k - 1) % 2 ^ k) p
      = (p + 2 ^ k - 1) - (p + 2 ^ k - 1) % 2 ^ k - p := by
    unfold usub
    generalize (p + 2 ^ k - 1) % 2 ^ k = r at hmod hmodle
    have hp : p < 2 ^ bits := by omega
    rw [Nat.mod_eq_of_lt (show p + 2 ^ k - 1 - r < 2 ^ bits by omega), Nat.mod_eq_of_lt hp]
    have e : p + 2 ^ k - 1 - r + (2 ^ bits - p) = (p + 2 ^ k - 1 - r - p) + 2 ^ bits := by omega
    rw [e, Nat.add_mod_right]
    exact Nat.mod_eq_of_lt (by omega)
  show uadd bits p (usub bits (uadd bits p (usub bits (2 ^ k) 1) &&& unot bits (usub bits (2 ^ k) 1)) p) = _
  rw [hmask, hsum, hnot, land_two_pow_sub_two_pow bits k _ hk hno, hbias]
  unfold uadd
  generalize (p + 2 ^ k - 1) % 2 ^ k = r at hmod hmodle
  have e : p + (p + 2 ^ k - 1 - r - p) = p + 2 ^ k - 1 - r := by omega
  rw [e]
  exact Nat.mod_eq_of_lt (by omega)

theorem round_up_facts (A p : Nat) (hA : 0 < A) :
    p ≤ (p + A - 1) - (p + A - 1) % A ∧
      ((p + A - 1) - (p + A - 1) % A) % A = 0 ∧
      (∀ q : Nat, p ≤ q → q % A = 0 → (p + A - 1) - (p + A - 1) % A ≤ q) ∧
      (p + A - 1) - (p + A - 1) % A - p < A := by
  have hmod : (p + A - 1) % A < A := Nat.mod_lt _ hA
  have hdvd : A ∣ (p + A - 1) - (p + A - 1) % A := Nat.dvd_sub_mod _
  refine ⟨by omega, Nat.mod_eq_zero_of_dvd hdvd, ?_, by omega⟩
  intro q hpq hq
  by_contra hlt
  have hqd : A ∣ q := Nat.dvd_of_mod_eq_zero hq
  have hsub : A ∣ (p + A - 1) - (p + A - 1) % A - q := Nat.dvd_sub' hdvd hqd
  have hle : A ≤ (p + A - 1) - (p + A - 1) % A - q := Nat.le_of_dvd (by omega) hsub
  omega

theorem aligned_add_lt (bits k q : Nat) (hk : k ≤ bits) (hq : q < 2 ^ bits)
    (hmod : q % 2 ^ k = 0) : q + 2 ^ k - 1 < 2 ^ bits := by
  have hpos : 0 < 2 ^ k := Nat.two_pow_pos k
  have hd1 : 2 ^ k ∣ 2 ^ bits := Nat.pow_dvd_pow 2 hk
  have hd2 : 2 ^ k ∣ q := Nat.dvd_of_mod_eq_zero hmod
  have hle : 2 ^ k ≤ 2 ^ bits - q := Nat.le_of_dvd (by omega) (Nat.dvd_sub' hd1 hd2)
  omega

theorem saturate_cast_eq_clamp (Dest : IntType) (x : Int) (hDest : Dest ≠ IntType.uint64_t)
    (hlo : -2 ^ 63 ≤ x) (hhi : x < 2 ^ 63) :
    saturate_cast Dest x = clamp Dest.min Dest.max x := by
  cases Dest <;>
    first
    | exact absurd rfl hDest
    | (simp only [saturate_cast, clamp, IntType.withInt64, IntType.convert, IntType.max,
        IntType.min, IntType.bits, IntType.isSigned]
       norm_num
       split_ifs <;> omega)

theorem clamp_mono (lo hi x y : Int) (hlohi : lo ≤ hi) (hxy : x ≤ y) :
    clamp lo hi x ≤ clamp lo hi y := by
  unfold clamp
  split_ifs <;> omega

/-! ## The free functions -/

/-- C13: `align_ptr` rounds an address up to a multiple of `Alignment`. For every
power-of-two `Alignment` and every address `p` such that `p + Alignment - 1` does
not overflow `uintptr_t`, the result `q` is the smallest address with `q >= p` and
`q mod Alignment = 0`; so `q - p < Alignment`, an aligned `p` is returned as it is,
and `align_ptr` is idempotent. With 8-byte alignment 1000 goes to 1000, 1001 and
1003 go to 1008, 1004 goes to 1008; with 4-byte alignment 1004 goes to 1004. -/
theorem align_ptr_rounds_up (bits Alignment p : Nat) (hA : Alignment < 2 ^ bits)
    (hpow : is_power_of_2 bits Alignment = true) (hno : p + Alignment - 1 < 2 ^ bits) :
    (p ≤ align_ptr bits Alignment p ∧
        align_ptr bits Alignment p % Alignment = 0 ∧
        (∀ q : Nat, p ≤ q → q % Alignment = 0 → align_ptr bits Alignment p ≤ q)) ∧
      align_ptr bits Alignment p - p < Alignment ∧
      (p % Alignment = 0 → align_ptr bits Alignment p = p) ∧
      align_ptr bits Alignment (align_ptr bits Alignment p) = align_ptr bits Alignment p ∧
      (align_ptr 64 8 1000 = 1000 ∧ align_ptr 64 8 1001 = 1008 ∧ align_ptr 64 8 1003 = 1008 ∧
        align_ptr 64 4 1004 = 1004 ∧ align_ptr 64 8 1004 = 1008) := by
  obtain ⟨k, rfl⟩ := (is_power_of_2_iff bits Alignment hA).mp hpow
  have hpos : 0 < 2 ^ k := Nat.two_pow_pos k
  have hk : k ≤ bits := by
    by_contra hnot
    have hle : 2 ^ bits ≤ 2 ^ k := Nat.pow_le_pow_right (by norm_num) (by omega)
    omega
  have hq := align_ptr_eq bits k p hA hno
  obtain ⟨h1, h2, h3, h4⟩ := round_up_facts (2 ^ k) p hpos
  rw [← hq] at h1 h2 h3 h4
  have hfix : ∀ r : Nat, r + 2 ^ k - 1 < 2 ^ bits → r % 2 ^ k = 0 →
      align_ptr bits (2 ^ k) r = r := by
    intro r hr hmod
    obtain ⟨g1, _, g3, _⟩ := round_up_facts (2 ^ k) r hpos
    rw [← align_ptr_eq bits k r hA hr] at g1 g3
    exact Nat.le_antisymm (g3 r (Nat.le_refl r) hmod) g1
  have hqlt : align_ptr bits (2 ^ k) p < 2 ^ bits := by
    rw [hq]
    omega
  refine ⟨⟨h1, h2, h3⟩, h4, hfix p hno, ?_, by decide⟩
  exact hfix _ (aligned_add_lt bits k _ hk hqlt h2) h2

/-- Witness for C13 with a 64-bit `uintptr_t`, 8-byte alignment and address 1001. -/
theorem align_ptr_rounds_up_witness :
    8 < 2 ^ 64 ∧ is_power_of_2 64 8 = true ∧ 1001 + 8 - 1 < 2 ^ 64 ∧
      1001 ≤ align_ptr 64 8 1001 ∧ align_ptr 64 8 1001 % 8 = 0 ∧
      align_ptr 64 8 1001 - 1001 < 8 :=
  ⟨by decide, by decide, by decide,
    (align_ptr_rounds_up 64 8 1001 (by decide) (by decide) (by decide)).1.1,
    (align_ptr_rounds_up 64 8 1001 (by decide) (by decide) (by decide)).1.2.1,
    (align_ptr_rounds_up 64 8 1001 (by decide) (by decide) (by decide)).2.1⟩

/-- For every destination type whose values all fit in `int64_t` (every type but
the 64-bit unsigned one) and every `int64_t` value `x`, `saturate_cast` returns
`x` clamped to the range of the type, and it is monotone in `x`. -/
theorem saturate_cast_clamps_within_int64 (Dest : IntType) (hDest : Dest ≠ IntType.uint64_t)
    (x y : Int) (hx : -2 ^ 63 ≤ x ∧ x < 2 ^ 63) (hy : -2 ^ 63 ≤ y ∧ y < 2 ^ 63) :
    saturate_cast Dest x = clamp Dest.min Dest.max x ∧
      (x ≤ y → saturate_cast Dest x ≤ saturate_cast Dest y) := by
  refine ⟨saturate_cast_eq_clamp Dest x hDest hx.1 hx.2, ?_⟩
  intro hxy
  rw [saturate_cast_eq_clamp Dest x hDest hx.1 hx.2,
    saturate_cast_eq_clamp Dest y hDest hy.1 hy.2]
  apply clamp_mono _ _ _ _ _ hxy
  cases Dest <;> decide

/-- C14 fails for `Dest = uint64_t` at `x = -1`: both comparisons are made in
`uint64_t`, where `-1` is `2^64 - 1`, so neither fires and the result is
`2^64 - 1`; the clamp of `-1` to the range of `uint64_t` is `0`, and the result
is above `saturate_cast<uint64_t>(0) = 0` although `-1 < 0`. -/
theorem saturate_cast_uint64_t_negative :
    saturate_cast IntType.uint64_t (-1) = 18446744073709551615 ∧
      clamp IntType.uint64_t.min IntType.uint64_t.max (-1) = 0 ∧
      saturate_cast IntType.uint64_t (-1) ≠ clamp IntType.uint64_t.min IntType.uint64_t.max (-1) ∧
      saturate_cast IntType.uint64_t 0 = 0 ∧
      ¬ saturate_cast IntType.uint64_t (-1) ≤ saturate_cast IntType.uint64_t 0 := by
  decide

/-- C15: for every `size_t` value `n`, `is_power_of_2(n)` is true if and only if
`n = 2^k` for some `k >= 0`; it is false for `n = 0`, and whenever `n != 0`, the
only case in which `n - 1` is used, `n - 1` does not wrap. -/
theorem is_power_of_2_spec (bits n : Nat) (hn : n < 2 ^ bits) :
    (is_power_of_2 bits n = true ↔ ∃ k : Nat, n = 2 ^ k) ∧
      is_power_of_2 bits 0 = false ∧
      (n ≠ 0 → usub bits n 1 = n - 1) :=
  ⟨is_power_of_2_iff bits n hn, rfl, fun h0 => usub_one bits n h0 hn⟩

/-- Witness for C15 with a 64-bit `size_t` at `n = 8 = 2^3`. -/
theorem is_power_of_2_spec_witness :
    8 < 2 ^ 64 ∧ is_power_of_2 64 8 = true ∧ usub 64 8 1 = 7 :=
  ⟨by decide,
    (is_power_of_2_spec 64 8 (by decide)).1.mpr ⟨3, rfl⟩,
    (is_power_of_2_spec 64 8 (by decide)).2.2 (by decide)⟩

end DnsResolver
